/-
Verification of the auto-revision-epistemic-engine against its design
specification.

The repository ships two Python files: the package `__init__.py` (re-exports)
and the CLI entry point `__main__.py`.  The governance pipeline core
(AuditChain, GateController, PhaseRunner, Orchestrator, ReproducibilityContext)
is imported by `__init__.py` but its modules are not part of the visible
sources, so those components are modelled here from the specification text
(each such definition is marked `Modelled from the spec:`).  The CLI
configuration-resolution logic of `cmd_run` in `__main__.py` is embedded
directly from the source.

Conventions: canonical payload serialisations are abstracted as natural
numbers; wall-clock timestamps are replaced by a deterministic logical clock;
the collision-resistant hash required by the spec is realised by an injective
pairing function, which is all the chain-linkage invariant needs.
-/
import Mathlib

/-! ## Audit chain (modelled from the spec, section 4.1) -/

/-- Modelled from the spec: audit event types used by the engine
(`phase_started`, `phase_completed`, `phase_blocked`, `gate_decision`,
`pipeline_completed`, `pipeline_failed`).  The concrete module
`audit.audit_logger` is not among the visible sources. -/
inductive EventType where
  | phase_started
  | phase_completed
  | phase_blocked
  | gate_decision
  | pipeline_completed
  | pipeline_failed
deriving DecidableEq

/-- Numeric code of an event type, used inside the record hash. -/
def EventType.code : EventType → Nat
  | .phase_started => 0
  | .phase_completed => 1
  | .phase_blocked => 2
  | .gate_decision => 3
  | .pipeline_completed => 4
  | .pipeline_failed => 5

/-- Modelled from the spec: the fixed genesis constant `GENESIS_HASH`. -/
def GENESIS_HASH : Nat := 0

/-- Modelled from the spec: `record_hash = Hash(prev_hash, sequence_number,
event_type, canonical(payload))`.  Any collision-resistant hash satisfies the
invariant (spec section 9); we use an injective pairing so that distinct
inputs provably yield distinct hashes. -/
def auditHash (prev seq etype payload : Nat) : Nat :=
  Nat.pair prev (Nat.pair seq (Nat.pair etype payload)) + 1

/-- Modelled from the spec: an `AuditRecord` with sequence number, event type,
canonical payload (abstracted as a natural number), previous hash and its own
record hash. -/
structure AuditRecord where
  seq : Nat
  event_type : EventType
  payload : Nat
  prev_hash : Nat
  record_hash : Nat
deriving DecidableEq

/-- Modelled from the spec: the audit chain is the ordered sequence of
append-only records. -/
abbrev AuditChain := List AuditRecord

/-- Hash of the last record of a chain, or `GENESIS_HASH` for the empty
chain. -/
def lastHash : AuditChain → Nat
  | [] => GENESIS_HASH
  | [r] => r.record_hash
  | _ :: r :: rs => lastHash (r :: rs)

/-- Modelled from the spec: `AuditChain.append(event_type, payload)` computes
the record hash over the previous record's hash and this record's canonical
payload, assigns the next sequence number and appends. -/
def AuditChain.append (c : AuditChain) (et : EventType) (p : Nat) : AuditChain :=
  c ++ [⟨c.length, et, p, lastHash c,
    auditHash (lastHash c) c.length et.code p⟩]

/-- One record check performed by `verify`: the stored `prev_hash` must equal
the running hash of the chain so far, and the stored `record_hash` must equal
the hash recomputed from the stored fields. -/
def recordOk (prev : Nat) (r : AuditRecord) : Bool :=
  (r.prev_hash == prev) &&
    (r.record_hash == auditHash r.prev_hash r.seq r.event_type.code r.payload)

/-- Worker of `verify`: walks the chain with the running previous hash and the
current index, returning the index of the first mismatching record. -/
def verifyFrom : Nat → Nat → AuditChain → Option Nat
  | _, _, [] => none
  | prev, i, r :: rs =>
      match recordOk prev r with
      | true => verifyFrom r.record_hash (i + 1) rs
      | false => some i

/-- Modelled from the spec: `AuditChain.verify()` recomputes every record's
hash from the stored previous hash and payload and compares, returning
validity together with the index of the first mismatch. -/
def AuditChain.verify (c : AuditChain) : Bool × Option Nat :=
  match verifyFrom GENESIS_HASH 0 c with
  | none => (true, none)
  | some i => (false, some i)

/-- The running hash after consuming a chain segment, starting from `prev`. -/
def lastHashFrom (prev : Nat) : AuditChain → Nat
  | [] => prev
  | r :: rs => lastHashFrom r.record_hash rs

/-- A chain whose verification from `GENESIS_HASH` finds no mismatch. -/
def validChain (c : AuditChain) : Prop :=
  verifyFrom GENESIS_HASH 0 c = none

/-- The spec's stated invariant: `record[0].prev_hash == GENESIS_HASH` and
`record[i].prev_hash == record[i-1].record_hash` for all `i > 0`. -/
def chainLinked (c : AuditChain) : Prop :=
  (∀ r, c.get? 0 = some r → r.prev_hash = GENESIS_HASH) ∧
  (∀ i r r', c.get? i = some r → c.get? (i + 1) = some r' →
    r'.prev_hash = r.record_hash)

/-- A chain built by a sequence of appends starting from the empty chain. -/
def buildChain (evs : List (EventType × Nat)) : AuditChain :=
  evs.foldl (fun c ep => AuditChain.append c ep.1 ep.2) []

theorem lastHashFrom_cons (rs : AuditChain) : ∀ (r : AuditRecord) (prev : Nat),
    lastHashFrom prev (r :: rs) = lastHash (r :: rs) := by
  induction rs with
  | nil => intro r prev; simp [lastHashFrom, lastHash]
  | cons x xs ih =>
      intro r prev
      show lastHashFrom r.record_hash (x :: xs) = lastHash (r :: x :: xs)
      rw [ih x r.record_hash]
      rfl

theorem lastHashFrom_genesis (c : AuditChain) :
    lastHashFrom GENESIS_HASH c = lastHash c := by
  cases c with
  | nil => rfl
  | cons r rs => exact lastHashFrom_cons rs r GENESIS_HASH

theorem verifyFrom_append (pre : AuditChain) : ∀ prev i rest,
    verifyFrom prev i (pre ++ rest) =
      match verifyFrom prev i pre with
      | some j => some j
      | none => verifyFrom (lastHashFrom prev pre) (i + pre.length) rest := by
  induction pre with
  | nil => intro prev i rest; simp [verifyFrom, lastHashFrom]
  | cons r rs ih =>
      intro prev i rest
      rw [List.cons_append]
      cases h : recordOk prev r with
      | true =>
          simp only [verifyFrom, h]
          rw [ih r.record_hash (i + 1) rest]
          have harith : i + 1 + rs.length = i + (r :: rs).length := by
            simp [List.length_cons]; omega
          rw [harith]
          rfl
      | false => simp only [verifyFrom, h, List.length_cons]

theorem append_valid {c : AuditChain} (h : validChain c) (et : EventType)
    (p : Nat) : validChain (AuditChain.append c et p) := by
  unfold validChain AuditChain.append at *
  rw [verifyFrom_append, h]
  rw [lastHashFrom_genesis]
  simp [verifyFrom, recordOk]

theorem buildChain_valid (evs : List (EventType × Nat)) :
    validChain (buildChain evs) := by
  suffices h : ∀ c, validChain c →
      validChain (evs.foldl (fun c ep => AuditChain.append c ep.1 ep.2) c) by
    exact h [] (by simp [validChain, verifyFrom])
  induction evs with
  | nil => intro c hc; exact hc
  | cons e es ih =>
      intro c hc
      simp only [List.foldl_cons]
      exact ih _ (append_valid hc e.1 e.2)

theorem valid_chainLinked {c : AuditChain} (h : validChain c) : chainLinked c := by
  unfold validChain at h
  suffices hgen : ∀ (d : AuditChain) prev i, verifyFrom prev i d = none →
      (∀ r, d.get? 0 = some r → r.prev_hash = prev) ∧
      (∀ j r r', d.get? j = some r → d.get? (j + 1) = some r' →
        r'.prev_hash = r.record_hash) by
    unfold chainLinked
    exact hgen c GENESIS_HASH 0 h
  intro d
  induction d with
  | nil => intro prev i _; constructor <;> intro j <;> simp [List.get?]
  | cons r rs ih =>
      intro prev i hv
      cases hok : recordOk prev r with
      | false =>
          simp only [verifyFrom, hok] at hv
          exact Option.noConfusion hv
      | true =>
          simp only [verifyFrom, hok] at hv
          have hr : r.prev_hash = prev := by
            simp only [recordOk, Bool.and_eq_true, beq_iff_eq] at hok
            exact hok.1
          have ihr := ih r.record_hash (i + 1) hv
          constructor
          · intro x hx
            simp only [List.get?_cons_zero, Option.some.injEq] at hx
            rw [← hx, hr]
          · intro j x y hx hy
            cases j with
            | zero =>
                simp only [List.get?_cons_zero, Option.some.injEq] at hx
                simp only [List.get?_cons_succ] at hy
                rw [← hx]
                exact ihr.1 y hy
            | succ k =>
                simp only [List.get?_cons_succ] at hx hy
                exact ihr.2 k x y hx hy

theorem auditHash_inj {p1 s1 e1 d1 p2 s2 e2 d2 : Nat}
    (h : auditHash p1 s1 e1 d1 = auditHash p2 s2 e2 d2) :
    p1 = p2 ∧ s1 = s2 ∧ e1 = e2 ∧ d1 = d2 := by
  unfold auditHash at h
  have h1 := Nat.succ_injective h
  have h2 := Nat.pair_eq_pair.1 h1
  have h3 := Nat.pair_eq_pair.1 h2.2
  have h4 := Nat.pair_eq_pair.1 h3.2
  exact ⟨h2.1, h3.1, h4.1, h4.2⟩

theorem corrupt_detected {pre post : AuditChain} {r' : AuditRecord}
    (hpre : verifyFrom GENESIS_HASH 0 pre = none)
    (hbad : recordOk (lastHashFrom GENESIS_HASH pre) r' = false) :
    AuditChain.verify (pre ++ r' :: post) = (false, some pre.length) := by
  unfold AuditChain.verify
  rw [verifyFrom_append, hpre]
  simp only [verifyFrom, hbad, Nat.zero_add]

theorem valid_middle {pre post : AuditChain} {r : AuditRecord}
    (hv : validChain (pre ++ r :: post)) :
    verifyFrom GENESIS_HASH 0 pre = none ∧
      recordOk (lastHashFrom GENESIS_HASH pre) r = true := by
  unfold validChain at hv
  rw [verifyFrom_append] at hv
  cases hpre : verifyFrom GENESIS_HASH 0 pre with
  | some j => rw [hpre] at hv; simp at hv
  | none =>
      rw [hpre] at hv
      simp only at hv
      refine ⟨rfl, ?_⟩
      cases hok : recordOk (lastHashFrom GENESIS_HASH pre) r with
      | true => rfl
      | false =>
          simp only [verifyFrom, hok] at hv
          exact Option.noConfusion hv

/-! ## Error taxonomy and governance data model (modelled from the spec) -/

/-- Modelled from the spec: the error taxonomy of section 7. -/
inductive EngErr where
  | InvalidPayload
  | GateAlreadyOpen
  | GateAlreadyClosed
  | UnknownGate
  | RoleMismatch
  | RunInProgress
  | DuplicatePin
deriving DecidableEq

/-- Modelled from the spec: run states of the phase state machine. -/
inductive RunStatus where
  | PENDING
  | RUNNING
  | AWAITING_GATE
  | GATE_REJECTED
  | COMPLETED
  | FAILED
deriving DecidableEq

/-- Modelled from the spec: terminal and pending states of a GateRequest. -/
inductive GateStatus where
  | PENDING
  | APPROVED
  | REJECTED
  | TIMED_OUT
  | AUTO_APPROVED
deriving DecidableEq

/-- Numeric code of a gate status, used for audit payload encoding. -/
def GateStatus.code : GateStatus → Nat
  | .PENDING => 0
  | .APPROVED => 1
  | .REJECTED => 2
  | .TIMED_OUT => 3
  | .AUTO_APPROVED => 4

/-- A decision submitted to `GateController.decide`. -/
inductive Decision where
  | approve
  | reject
deriving DecidableEq

/-- The terminal gate status a decision produces. -/
def decisionStatus : Decision → GateStatus
  | .approve => .APPROVED
  | .reject => .REJECTED

/-- Modelled from the spec: reasons a run can fail, each referencing the
halting phase index. -/
inductive FailureReason where
  | GateRejected (phase : Nat)
  | EthicsViolation (phase : Nat)
deriving DecidableEq

/-- Modelled from the spec: an ethics verdict is a `(score, passed)` pair.
Scores are abstracted to integers; the core only branches on `passed`. -/
structure EthicsVerdict where
  score : Int
  passed : Bool
deriving DecidableEq

/-- Modelled from the spec: a resource report is a `(cost, budget)` pair. -/
structure ResourceCost where
  cost : Int
  budget : Int
deriving DecidableEq

/-- Modelled from the spec: an immutable `PhaseDefinition`.  `gate_role` and
`gate_timeout` are meaningful only when `requires_gate` is true. -/
structure PhaseDefinition where
  index : Nat
  name : String
  requires_gate : Bool
  gate_role : String
  gate_timeout : Option Nat
deriving DecidableEq

/-- Modelled from the spec: a `PhaseOutcome`, immutable once recorded. -/
structure PhaseOutcome where
  phase_index : Nat
  started_at : Nat
  completed_at : Nat
  result_payload : Nat
  ethics_verdict : EthicsVerdict
  resource_cost : ResourceCost
  over_budget : Bool
  gate_decision : Option GateStatus
deriving DecidableEq

/-- Modelled from the spec: a `GateRequest` created when a gated phase is
entered. -/
structure GateRequest where
  gate_id : Nat
  phase_index : Nat
  required_role : String
  created_at : Nat
  status : GateStatus
deriving DecidableEq

/-- Modelled from the spec: the mutable `PipelineRun` owned by the
Orchestrator. -/
structure PipelineRun where
  run_id : Nat
  pipeline_id : String
  seed : Nat
  current_phase_index : Nat
  phase_outputs : List PhaseOutcome
  status : RunStatus
deriving DecidableEq

/-- Modelled from the spec: the `ReproducibilityContext` with its seed and
insertion-ordered pinned artifact mapping. -/
structure ReproCtx where
  seed : Nat
  pinned_artifacts : List (String × String)
deriving DecidableEq

/-- Modelled from the spec: the result returned by `Orchestrator.execute`. -/
structure PipelineResult where
  success : Bool
  run_id : Nat
  phase_outcomes : List PhaseOutcome
  failure_reason : Option FailureReason
deriving DecidableEq

/-! ## ReproducibilityContext pinning (modelled from the spec) -/

/-- First binding of a name in the pinned artifact mapping. -/
def pinsLookup : List (String × String) → String → Option String
  | [], _ => none
  | (k, v) :: rest, n => if k = n then some v else pinsLookup rest n

/-- Modelled from the spec: `pin_model(name, version)` fails with
`DuplicatePin` if the name is already pinned to a different version;
re-pinning the identical version is a no-op success; otherwise the pin is
recorded preserving insertion order.  Returns the outcome together with the
(possibly updated) mapping. -/
def ReproCtx.pin_model (pins : List (String × String)) (n v : String) :
    Except EngErr Unit × List (String × String) :=
  match pinsLookup pins n with
  | some v0 => if v0 = v then (.ok (), pins) else (.error .DuplicatePin, pins)
  | none => (.ok (), pins ++ [(n, v)])

/-! ## GateController (modelled from the spec, section 4.2) -/

/-- Role-based access check: the actor's role must equal or outrank the
required role in the configured hierarchy `rh`. -/
def permits (rh : String → String → Bool) (actor required : String) : Bool :=
  (actor == required) || rh actor required

/-- Modelled from the spec: the state shared by the GateController — its open
and closed gate requests and the audit chain handle. -/
structure GovState where
  gates : List GateRequest
  chain : AuditChain
deriving DecidableEq

/-- Find a gate request by id. -/
def findGate (gates : List GateRequest) (gid : Nat) : Option GateRequest :=
  gates.find? (fun g => g.gate_id == gid)

/-- Modelled from the spec: `GateController.decide(gate_id, decision,
actor_role, rationale)` — fails with `UnknownGate` if the id is unmatched,
`RoleMismatch` if the actor's role does not equal or outrank the required
role, `GateAlreadyClosed` if the request is not PENDING; on success it
transitions the gate and appends a `gate_decision` audit record.  Protocol
misuse leaves the state untouched.  The actor and rationale strings are part
of the opaque canonical payload and are abstracted out of its encoding. -/
def GateController.decide (rh : String → String → Bool) (st : GovState)
    (gid : Nat) (d : Decision) (actor _rationale : String) (now : Nat) :
    Except EngErr GateRequest × GovState :=
  match findGate st.gates gid with
  | none => (.error .UnknownGate, st)
  | some g =>
      match permits rh actor g.required_role with
      | false => (.error .RoleMismatch, st)
      | true =>
          if g.status = GateStatus.PENDING then
            let g2 : GateRequest := { g with status := decisionStatus d }
            (.ok g2,
              ⟨st.gates.map (fun h => if h.gate_id == gid then g2 else h),
                AuditChain.append st.chain .gate_decision
                  (Nat.pair gid (Nat.pair (decisionStatus d).code now))⟩)
          else (.error .GateAlreadyClosed, st)

/-! ## PhaseRunner and Orchestrator (modelled from the spec, 4.3 and 4.4) -/

/-- An external approver action observed while a gated phase is parked: the
arrival offset relative to the gate opening, the decision, the acting role
and a rationale. -/
structure GateArrival where
  time : Nat
  decision : Decision
  actor : String
  rationale : String

/-- Modelled from the spec: engine configuration — the fixed ordered phase
list, the two external providers, the injectable role hierarchy, the pure
domain computation of each phase, whether gate enforcement is disabled
(auto-approve), and the external approval channel for each gated phase. -/
structure EngineCfg where
  phases : List PhaseDefinition
  ethics : Nat → Nat → EthicsVerdict
  resource : Nat → Nat → ResourceCost
  rh : String → String → Bool
  compute : Nat → List Nat → Nat → Nat → Nat
  auto_approve : Bool
  gateOracle : Nat → Option GateArrival

/-- Whether an arrival offset is within a configured deadline ("no decision
arrives before it" triggers the timeout). -/
def within (t : Nat) : Option Nat → Bool
  | some dl => decide (t < dl)
  | none => true

/-- Fallback resolution of an undecided gate: TIMED_OUT when a deadline is
configured, otherwise the request stays pending forever. -/
def timeoutFallback : Option Nat → Option GateStatus
  | some _ => some .TIMED_OUT
  | none => none

/-- Modelled from the spec: resolution of a gated phase's blocking wait.
With gate enforcement disabled the request is AUTO_APPROVED; otherwise a
valid in-deadline decision by a permitted actor resolves it, and absence of
one falls back to the timeout policy. -/
def gateOutcome (auto : Bool) (rh : String → String → Bool) (required : String)
    (timeout : Option Nat) (arrival : Option GateArrival) : Option GateStatus :=
  match auto with
  | true => some .AUTO_APPROVED
  | false =>
      match arrival with
      | some a =>
          match permits rh a.actor required && within a.time timeout with
          | true => some (decisionStatus a.decision)
          | false => timeoutFallback timeout
      | none => timeoutFallback timeout

/-- Modelled from the spec: only APPROVED or AUTO_APPROVED advance a gated
phase; REJECTED and TIMED_OUT are treated identically (fail-closed). -/
def gateAdvances : GateStatus → Bool
  | .APPROVED => true
  | .AUTO_APPROVED => true
  | _ => false

/-- Accumulated state of a run in flight: outcomes so far, audit chain and
the deterministic logical clock. -/
structure RunAcc where
  outputs : List PhaseOutcome
  chain : AuditChain
  clock : Nat
deriving DecidableEq

/-- Result of running a single phase. -/
inductive PhaseStep where
  | next (acc : RunAcc)
  | halt (acc : RunAcc) (reason : FailureReason)
  | stuck (acc : RunAcc)
deriving DecidableEq

/-- Modelled from the spec: `PhaseRunner.run` — append `phase_started`,
execute the pure domain computation over prior outputs, the original input
and the seed, consult both providers, enforce the ethics policy, resolve the
gate if the phase is gated, and either append `phase_completed` and return
the outcome or append `phase_blocked` and signal the failure. -/
def runPhase (cfg : EngineCfg) (input seed : Nat) (p : PhaseDefinition)
    (acc : RunAcc) : PhaseStep :=
  let chain1 := AuditChain.append acc.chain .phase_started
    (Nat.pair p.index acc.clock)
  let out := cfg.compute p.index (acc.outputs.map PhaseOutcome.result_payload)
    input seed
  let verdict := cfg.ethics p.index out
  let cost := cfg.resource p.index out
  match verdict.passed with
  | false =>
      .halt ⟨acc.outputs,
        AuditChain.append chain1 .phase_blocked (Nat.pair p.index 0),
        acc.clock + 2⟩ (.EthicsViolation p.index)
  | true =>
      match p.requires_gate with
      | true =>
          match gateOutcome cfg.auto_approve cfg.rh p.gate_role p.gate_timeout
              (cfg.gateOracle p.index) with
          | none => .stuck ⟨acc.outputs, chain1, acc.clock + 1⟩
          | some gs =>
              let chain2 :=
                match gs with
                | GateStatus.TIMED_OUT => chain1
                | _ => AuditChain.append chain1 .gate_decision
                    (Nat.pair p.index gs.code)
              match gateAdvances gs with
              | true =>
                  .next ⟨acc.outputs ++
                    [⟨p.index, acc.clock, acc.clock + 1, out, verdict, cost,
                      decide (cost.budget < cost.cost), some gs⟩],
                    AuditChain.append chain2 .phase_completed
                      (Nat.pair p.index out),
                    acc.clock + 2⟩
              | false =>
                  .halt ⟨acc.outputs,
                    AuditChain.append chain2 .phase_blocked
                      (Nat.pair p.index 1),
                    acc.clock + 2⟩ (.GateRejected p.index)
      | false =>
          .next ⟨acc.outputs ++
            [⟨p.index, acc.clock, acc.clock + 1, out, verdict, cost,
              decide (cost.budget < cost.cost), none⟩],
            AuditChain.append chain1 .phase_completed (Nat.pair p.index out),
            acc.clock + 2⟩

/-- Result of stepping the whole phase list. -/
inductive RunResult where
  | completed (acc : RunAcc)
  | failed (acc : RunAcc) (reason : FailureReason)
  | blocked (acc : RunAcc) (phase : Nat)
deriving DecidableEq

/-- Modelled from the spec: the orchestrator steps through the phases in
their fixed order, halting immediately on the first governance failure. -/
def runPhases (cfg : EngineCfg) (input seed : Nat) :
    List PhaseDefinition → RunAcc → RunResult
  | [], acc => .completed acc
  | p :: ps, acc =>
      match runPhase cfg input seed p acc with
      | .next acc2 => runPhases cfg input seed ps acc2
      | .halt acc2 reason => .failed acc2 reason
      | .stuck acc2 => .blocked acc2 p.index

/-- Modelled from the spec: the full state owned by one Orchestrator
instance. -/
structure OrchState where
  run : Option PipelineRun
  chain : AuditChain
  repro : ReproCtx
deriving DecidableEq

/-- An execute call is re-entrant iff the active run is RUNNING (including
its transient AWAITING_GATE sub-state). -/
def isActive (st : OrchState) : Bool :=
  match st.run with
  | some r =>
      decide (r.status = RunStatus.RUNNING ∨ r.status = RunStatus.AWAITING_GATE)
  | none => false

/-- Phase index encoded into a failure reason. -/
def FailureReason.phase : FailureReason → Nat
  | .GateRejected k => k
  | .EthicsViolation k => k

/-- Numeric code of a failure reason, used for audit payload encoding. -/
def FailureReason.code : FailureReason → Nat
  | .GateRejected _ => 0
  | .EthicsViolation _ => 1

/-- Modelled from the spec: `Orchestrator.execute(inputs)` — rejects
re-entrant calls with `RunInProgress` without mutating any state; otherwise
steps through all phases, appending `pipeline_completed` on success or
exactly one `pipeline_failed` record on a governance failure, and returns a
`PipelineResult`.  The outer `Option` is `none` when the run parks forever on
an unresolvable gate (the call never returns). -/
def Orchestrator.execute (cfg : EngineCfg) (st : OrchState) (run_id : Nat)
    (pipeline_id : String) (input : Nat) :
    Option (Except EngErr PipelineResult) × OrchState :=
  match isActive st with
  | true => (some (.error .RunInProgress), st)
  | false =>
      match runPhases cfg input st.repro.seed cfg.phases ⟨[], st.chain, 0⟩ with
      | .completed acc =>
          (some (.ok ⟨true, run_id, acc.outputs, none⟩),
            ⟨some ⟨run_id, pipeline_id, st.repro.seed, cfg.phases.length,
                acc.outputs, .COMPLETED⟩,
              AuditChain.append acc.chain .pipeline_completed
                (Nat.pair cfg.phases.length 0),
              st.repro⟩)
      | .failed acc reason =>
          (some (.ok ⟨false, run_id, acc.outputs, some reason⟩),
            ⟨some ⟨run_id, pipeline_id, st.repro.seed, reason.phase,
                acc.outputs, .FAILED⟩,
              AuditChain.append acc.chain .pipeline_failed
                (Nat.pair reason.phase reason.code),
              st.repro⟩)
      | .blocked acc k =>
          (none,
            ⟨some ⟨run_id, pipeline_id, st.repro.seed, k, acc.outputs,
                .AWAITING_GATE⟩,
              acc.chain, st.repro⟩)

/-- Modelled from the spec: `get_audit_trail()` returns the records together
with `chain_valid` from `AuditChain.verify()`. -/
def get_audit_trail (st : OrchState) : AuditChain × Bool :=
  (st.chain, (AuditChain.verify st.chain).1)

/-- Modelled from the spec: `Orchestrator.pin_model` delegates to the
ReproducibilityContext. -/
def Orchestrator.pin_model (st : OrchState) (n v : String) :
    Except EngErr Unit × OrchState :=
  ((ReproCtx.pin_model st.repro.pinned_artifacts n v).1,
    { st with repro := { st.repro with pinned_artifacts :=
        (ReproCtx.pin_model st.repro.pinned_artifacts n v).2 } })

/-- Number of records of one event type in a chain. -/
def countE (et : EventType) (c : AuditChain) : Nat :=
  (c.filter (fun r => decide (r.event_type = et))).length

/-! ## CLI configuration resolution (embedded from `__main__.py`, `cmd_run`) -/

/-- JSON values as loaded by `json.load`.  Python `None` and JSON `null`
coincide (`json.load` maps `null` to `None`). -/
inductive Json where
  | null
  | bool (b : Bool)
  | num (n : Int)
  | str (s : String)
  | arr (xs : List Json)
  | obj (fields : List (String × Json))

/-- First value bound to a key in an object's field list. -/
def fieldsLookup : List (String × Json) → String → Option Json
  | [], _ => none
  | (k, v) :: rest, n => if k = n then some v else fieldsLookup rest n

/-- Python `config[k]` on a parsed JSON value: `none` models the raised
exception when the value is not a dict or the key is missing. -/
def pySub : Json → String → Option Json
  | .obj fs, k => fieldsLookup fs k
  | _, _ => none

/-- Python `config.get(k)` (default `None`): `none` models the
`AttributeError` raised when the value is not a dict. -/
def pyGet : Json → String → Option Json
  | .obj fs, k =>
      match fieldsLookup fs k with
      | some v => some v
      | none => some Json.null
  | _, _ => none

/-- Python `config.get(k, dflt)`: `none` models the `AttributeError` raised
when the value is not a dict. -/
def pyGetD (j : Json) (k : String) (dflt : Json) : Option Json :=
  match j with
  | .obj fs =>
      match fieldsLookup fs k with
      | some v => some v
      | none => some dflt
  | _ => none

/-- The `run` subcommand's argparse namespace: `--pipeline-id` (defaulted to
"cli-pipeline" by argparse), `--seed`, `--inputs`, `--inputs-file`,
`--no-hrg`, `--no-ethics`.  The `inputs_file` field holds the parsed JSON
content of the file when the flag is given (path truthiness is absorbed into
presence). -/
structure RunArgs where
  pipeline_id : String
  seed : Option Int
  inputs : Option String
  inputs_file : Option Json
  no_hrg : Bool
  no_ethics : Bool

/-- Python truthiness of `args.seed` rendered as JSON (`None` → null). -/
def seedJson : Option Int → Json
  | some n => Json.num n
  | none => Json.null

/-- Python truthiness of the optional `--inputs` string: absent and empty
are both falsy. -/
def truthyOpt : Option String → Bool
  | some s => decide (s ≠ "")
  | none => false

/-- The engine constructor arguments assembled by `cmd_run`.  `pipeline_id`,
`random_seed` and `enable_ethics` can be overridden by arbitrary JSON values
from the config file, so they are kept as JSON. -/
structure EngineParams where
  pipeline_id : Json
  random_seed : Json
  enable_hrg : Bool
  enable_ethics : Json
  inputs : Json

/-- Line 39-40 of `__main__.py`: `if hrg_cfg.get("auto_approve") is not None:
enable_hrg = True`, with `enable_hrg = not args.no_hrg` beforehand. -/
def hrgFlag (auto : Json) (no_hrg : Bool) : Bool :=
  match auto with
  | Json.null => !no_hrg
  | _ => true

/-- Lines 42-43 of `__main__.py`: `if ethics_cfg.get("enabled") is not None:
enable_ethics = ethics_cfg["enabled"]`, with `not args.no_ethics`
beforehand. -/
def ethicsFlag (ethics_cfg en : Json) (no_ethics : Bool) : Option Json :=
  match en with
  | Json.null => some (Json.bool (!no_ethics))
  | _ => pySub ethics_cfg "enabled"

/-- Embedded from `cmd_run` in `__main__.py` (lines 19-52): resolve the
pipeline inputs from `--inputs` (taken when truthy) or from the
`--inputs-file` JSON (its `"inputs"` key, defaulting to the whole document),
then let `pipeline_id`, `random_seed`, `hrg_config.auto_approve` and
`ethics_config.enabled` from the file override the command-line flags.
`parse` stands for `json.loads`; `none` models an uncaught exception. -/
def cmd_run_config (parse : String → Json) (args : RunArgs) :
    Option EngineParams :=
  let inputsO : Option Json :=
    match truthyOpt args.inputs with
    | true => some (parse (args.inputs.getD ""))
    | false =>
        match args.inputs_file with
        | some config => pyGetD config "inputs" config
        | none => some (Json.obj [])
  inputsO.bind fun inputs =>
    match args.inputs_file with
    | none =>
        some ⟨Json.str args.pipeline_id, seedJson args.seed, !args.no_hrg,
          Json.bool (!args.no_ethics), inputs⟩
    | some config =>
        (pyGetD config "pipeline_id" (Json.str args.pipeline_id)).bind
          fun pid =>
        (pyGetD config "random_seed" (seedJson args.seed)).bind fun seedv =>
        (pyGetD config "hrg_config" (Json.obj [])).bind fun hrg_cfg =>
        (pyGet hrg_cfg "auto_approve").bind fun auto =>
        (pyGetD config "ethics_config" (Json.obj [])).bind fun ethics_cfg =>
        (pyGet ethics_cfg "enabled").bind fun en =>
        (ethicsFlag ethics_cfg en args.no_ethics).map fun eeth =>
        ⟨pid, seedv, hrgFlag auto args.no_hrg, eeth, inputs⟩

/-! ## Supporting lemmas for the claims -/

theorem pinsLookup_append_self (pins : List (String × String)) (n v : String)
    (h : pinsLookup pins n = none) :
    pinsLookup (pins ++ [(n, v)]) n = some v := by
  induction pins with
  | nil => simp [pinsLookup]
  | cons kv rest ih =>
      obtain ⟨k, w⟩ := kv
      simp only [pinsLookup, List.cons_append] at h ⊢
      by_cases hk : k = n
      · rw [if_pos hk] at h; exact Option.noConfusion h
      · rw [if_neg hk] at h ⊢
        exact ih h

theorem pin_model_lookup {pins : List (String × String)} {n v : String}
    (h : (ReproCtx.pin_model pins n v).1 = Except.ok ()) :
    pinsLookup (ReproCtx.pin_model pins n v).2 n = some v := by
  cases hl : pinsLookup pins n with
  | some v0 =>
      simp only [ReproCtx.pin_model, hl] at h ⊢
      by_cases hv : v0 = v
      · rw [if_pos hv] at h ⊢
        exact hv ▸ hl
      · rw [if_neg hv] at h
        simp at h
  | none =>
      simp only [ReproCtx.pin_model, hl] at h ⊢
      exact pinsLookup_append_self pins n v hl

/-! ## Claim theorems -/

/-- Claim C1: for every sequence of `append(event_type, payload)` calls on an
AuditChain, the chain satisfies the prev-hash linkage invariant and
`verify()` returns valid; and if any stored record's payload or prev_hash is
afterwards replaced by a different value, `verify()` returns invalid together
with the index of the first mismatching record. -/
theorem claim_C1_audit_chain (evs : List (EventType × Nat)) :
    (AuditChain.verify (buildChain evs) = (true, none) ∧
      chainLinked (buildChain evs)) ∧
    (∀ pre r post p2, buildChain evs = pre ++ r :: post → p2 ≠ r.payload →
      AuditChain.verify (pre ++ { r with payload := p2 } :: post) =
        (false, some pre.length)) ∧
    (∀ pre r post h2, buildChain evs = pre ++ r :: post → h2 ≠ r.prev_hash →
      AuditChain.verify (pre ++ { r with prev_hash := h2 } :: post) =
        (false, some pre.length)) := by
  have hvalid := buildChain_valid evs
  refine ⟨⟨?_, valid_chainLinked hvalid⟩, ?_, ?_⟩
  · unfold AuditChain.verify
    rw [hvalid]
  · intro pre r post p2 hsplit hne
    rw [hsplit] at hvalid
    obtain ⟨hpre, hok⟩ := valid_middle hvalid
    simp only [recordOk, Bool.and_eq_true, beq_iff_eq] at hok
    apply corrupt_detected hpre
    simp only [recordOk, Bool.and_eq_true, beq_iff_eq]
    simp only [Bool.and_eq_false_iff, beq_eq_false_iff_ne, ne_eq]
    right
    intro hcontra
    rw [hok.2] at hcontra
    exact hne (auditHash_inj hcontra).2.2.2.symm
  · intro pre r post h2 hsplit hne
    rw [hsplit] at hvalid
    obtain ⟨hpre, hok⟩ := valid_middle hvalid
    simp only [recordOk, Bool.and_eq_true, beq_iff_eq] at hok
    apply corrupt_detected hpre
    simp only [recordOk, Bool.and_eq_false_iff, beq_eq_false_iff_ne, ne_eq]
    left
    rw [← hok.1]
    exact hne

/-- Witness for C1: a two-record chain verifies valid, and corrupting the
payload of its first record is reported at break index 0. -/
theorem claim_C1_witness :
    AuditChain.verify (buildChain [(EventType.phase_started, 5)]) =
      (true, none) ∧
    AuditChain.verify
      ([(⟨0, EventType.phase_started, 5, 0, auditHash 0 0 0 5⟩ : AuditRecord)]
        ++
        [(⟨1, EventType.gate_decision, 9, auditHash 0 0 0 5,
          auditHash (auditHash 0 0 0 5) 1 3 7⟩ : AuditRecord)]) =
      (false, some 1) := by
  constructor
  · exact (claim_C1_audit_chain [(EventType.phase_started, 5)]).1.1
  · have h := (claim_C1_audit_chain
      [(EventType.phase_started, 5), (EventType.gate_decision, 7)]).2.1
    have h2 := h
      [(⟨0, EventType.phase_started, 5, 0, auditHash 0 0 0 5⟩ : AuditRecord)]
      (⟨1, EventType.gate_decision, 7, auditHash 0 0 0 5,
        auditHash (auditHash 0 0 0 5) 1 3 7⟩ : AuditRecord)
      [] 9 (by decide) (by decide)
    simpa using h2

/-- Claim C5: a `decide` call whose actor role does not equal or outrank the
gate's required role fails with `RoleMismatch`, the gate request remains
PENDING, and neither the gate store nor the audit chain changes (no
`gate_decision` record is appended). -/
theorem claim_C5_role_mismatch (rh : String → String → Bool) (st : GovState)
    (gid : Nat) (d : Decision) (actor rationale : String) (now : Nat)
    (g : GateRequest) (hg : findGate st.gates gid = some g)
    (hrole : permits rh actor g.required_role = false)
    (hpend : g.status = GateStatus.PENDING) :
    GateController.decide rh st gid d actor rationale now =
      (Except.error EngErr.RoleMismatch, st) ∧
    findGate (GateController.decide rh st gid d actor rationale now).2.gates
      gid = some g ∧
    g.status = GateStatus.PENDING ∧
    countE EventType.gate_decision
      (GateController.decide rh st gid d actor rationale now).2.chain =
      countE EventType.gate_decision st.chain := by
  have hmain : GateController.decide rh st gid d actor rationale now =
      (Except.error EngErr.RoleMismatch, st) := by
    unfold GateController.decide
    rw [hg]
    simp only [hrole]
  refine ⟨hmain, ?_, hpend, ?_⟩
  · rw [hmain]; exact hg
  · rw [hmain]

/-- Witness for C5: a viewer may not decide an admin gate; the state is
untouched. -/
theorem claim_C5_witness :
    GateController.decide (fun _ _ => false)
      ⟨[⟨1, 0, "admin", 0, GateStatus.PENDING⟩], []⟩ 1 Decision.approve
      "viewer" "because" 3 =
      (Except.error EngErr.RoleMismatch,
        ⟨[⟨1, 0, "admin", 0, GateStatus.PENDING⟩], []⟩) :=
  (claim_C5_role_mismatch (fun _ _ => false)
    ⟨[⟨1, 0, "admin", 0, GateStatus.PENDING⟩], []⟩ 1 Decision.approve
    "viewer" "because" 3 ⟨1, 0, "admin", 0, GateStatus.PENDING⟩
    (by decide) (by decide) (by decide)).1

/-- Claim C6: calling `execute` on an Orchestrator whose active run is
RUNNING fails with `RunInProgress` and mutates nothing (the state, hence the
active run, the audit chain and the reproducibility context, is unchanged);
and a call on a non-active instance never returns `RunInProgress`. -/
theorem claim_C6_run_in_progress (cfg : EngineCfg) (st : OrchState)
    (run_id : Nat) (pipeline_id : String) (input : Nat) (r : PipelineRun)
    (hr : st.run = some r) (hst : r.status = RunStatus.RUNNING) :
    Orchestrator.execute cfg st run_id pipeline_id input =
      (some (Except.error EngErr.RunInProgress), st) ∧
    (Orchestrator.execute cfg st run_id pipeline_id input).2.chain = st.chain ∧
    (Orchestrator.execute cfg st run_id pipeline_id input).2.repro = st.repro ∧
    (Orchestrator.execute cfg st run_id pipeline_id input).2.run = st.run ∧
    (∀ st2 : OrchState, isActive st2 = false →
      (Orchestrator.execute cfg st2 run_id pipeline_id input).1 ≠
        some (Except.error EngErr.RunInProgress)) := by
  have hact : isActive st = true := by
    unfold isActive
    rw [hr]
    simp [hst]
  have hmain : Orchestrator.execute cfg st run_id pipeline_id input =
      (some (Except.error EngErr.RunInProgress), st) := by
    unfold Orchestrator.execute
    rw [hact]
  refine ⟨hmain, by rw [hmain], by rw [hmain], by rw [hmain], ?_⟩
  intro st2 h2
  unfold Orchestrator.execute
  rw [h2]
  cases hrp : runPhases cfg input st2.repro.seed cfg.phases ⟨[], st2.chain, 0⟩
    with
  | completed acc => simp
  | failed acc reason => simp
  | blocked acc k => simp

/-- Witness for C6: a second `execute` on a RUNNING instance is rejected
without a state change. -/
theorem claim_C6_witness :
    Orchestrator.execute
      ⟨[], fun _ _ => ⟨1, true⟩, fun _ _ => ⟨0, 1⟩, fun _ _ => false,
        fun _ _ _ _ => 0, true, fun _ => none⟩
      ⟨some ⟨0, "p", 0, 0, [], RunStatus.RUNNING⟩, [], ⟨0, []⟩⟩ 1 "p" 0 =
      (some (Except.error EngErr.RunInProgress),
        ⟨some ⟨0, "p", 0, 0, [], RunStatus.RUNNING⟩, [], ⟨0, []⟩⟩) :=
  (claim_C6_run_in_progress _ _ 1 "p" 0 ⟨0, "p", 0, 0, [], RunStatus.RUNNING⟩
    rfl rfl).1

/-- Claim C7: after a successful `pin_model(n, v)`, pinning `(n, v)` again is
a no-op success, while pinning `(n, v2)` for `v2 ≠ v` fails with
`DuplicatePin` and leaves the state (hence the pinned mapping) unchanged. -/
theorem claim_C7_pin_model (st st2 : OrchState) (n v : String)
    (h : Orchestrator.pin_model st n v = (Except.ok (), st2)) :
    Orchestrator.pin_model st2 n v = (Except.ok (), st2) ∧
    (∀ v2, v2 ≠ v → Orchestrator.pin_model st2 n v2 =
      (Except.error EngErr.DuplicatePin, st2)) := by
  have hres : (ReproCtx.pin_model st.repro.pinned_artifacts n v).1 =
      Except.ok () := by
    have := congrArg Prod.fst h
    simpa [Orchestrator.pin_model] using this
  have hst2 : st2.repro.pinned_artifacts =
      (ReproCtx.pin_model st.repro.pinned_artifacts n v).2 := by
    have := congrArg Prod.snd h
    simp only [Orchestrator.pin_model] at this
    rw [← this]
  have hlk : pinsLookup st2.repro.pinned_artifacts n = some v := by
    rw [hst2]
    exact pin_model_lookup hres
  constructor
  · unfold Orchestrator.pin_model ReproCtx.pin_model
    rw [hlk]
    simp
  · intro v2 hne
    unfold Orchestrator.pin_model ReproCtx.pin_model
    rw [hlk]
    have : ¬ (v = v2) := fun hcontra => hne hcontra.symm
    simp [this]

/-- Witness for C7: pinning `("m", "v1")` then `("m", "v1")` succeeds,
while `("m", "v2")` afterwards fails with `DuplicatePin`. -/
theorem claim_C7_witness :
    Orchestrator.pin_model ⟨none, [], ⟨0, [("m", "v1")]⟩⟩ "m" "v1" =
      (Except.ok (), ⟨none, [], ⟨0, [("m", "v1")]⟩⟩) ∧
    Orchestrator.pin_model ⟨none, [], ⟨0, [("m", "v1")]⟩⟩ "m" "v2" =
      (Except.error EngErr.DuplicatePin, ⟨none, [], ⟨0, [("m", "v1")]⟩⟩) := by
  have h := claim_C7_pin_model ⟨none, [], ⟨0, []⟩⟩ ⟨none, [], ⟨0, [("m", "v1")]⟩⟩
    "m" "v1" rfl
  exact ⟨h.1, h.2 "v2" (by decide)⟩

/-! ## Run-level lemmas -/

theorem AuditChain.append_length (c : AuditChain) (et : EventType) (p : Nat) :
    (AuditChain.append c et p).length = c.length + 1 := by
  simp [AuditChain.append]

theorem countE_append (et et2 : EventType) (c : AuditChain) (p : Nat) :
    countE et (AuditChain.append c et2 p) =
      countE et c + (if et2 = et then 1 else 0) := by
  unfold countE AuditChain.append
  rw [List.filter_append, List.length_append]
  by_cases h : et2 = et
  · simp [h]
  · simp [h]

theorem verify_fst_of_valid {c : AuditChain} (h : validChain c) :
    (AuditChain.verify c).1 = true := by
  unfold AuditChain.verify
  rw [h]

theorem runPhases_append (cfg : EngineCfg) (input seed : Nat)
    (pre : List PhaseDefinition) : ∀ (rest : List PhaseDefinition)
    (acc : RunAcc),
    runPhases cfg input seed (pre ++ rest) acc =
      match runPhases cfg input seed pre acc with
      | RunResult.completed acc1 => runPhases cfg input seed rest acc1
      | RunResult.failed a r => RunResult.failed a r
      | RunResult.blocked a k => RunResult.blocked a k := by
  induction pre with
  | nil => intro rest acc; rfl
  | cons p ps ih =>
      intro rest acc
      rw [List.cons_append]
      simp only [runPhases]
      cases runPhase cfg input seed p acc with
      | next acc2 => exact ih rest acc2
      | halt acc2 reason => rfl
      | stuck acc2 => rfl

theorem runPhase_ethics_halt (cfg : EngineCfg) (input seed : Nat)
    (p : PhaseDefinition) (acc : RunAcc)
    (heth : (cfg.ethics p.index (cfg.compute p.index
      (acc.outputs.map PhaseOutcome.result_payload) input seed)).passed
      = false) :
    runPhase cfg input seed p acc =
      PhaseStep.halt ⟨acc.outputs,
        AuditChain.append
          (AuditChain.append acc.chain EventType.phase_started
            (Nat.pair p.index acc.clock))
          EventType.phase_blocked (Nat.pair p.index 0),
        acc.clock + 2⟩ (FailureReason.EthicsViolation p.index) := by
  simp only [runPhase]
  rw [heth]

theorem runPhase_timeout_halt (cfg : EngineCfg) (input seed : Nat)
    (p : PhaseDefinition) (acc : RunAcc)
    (heth : (cfg.ethics p.index (cfg.compute p.index
      (acc.outputs.map PhaseOutcome.result_payload) input seed)).passed
      = true)
    (hreq : p.requires_gate = true)
    (hauto : cfg.auto_approve = false)
    (horc : cfg.gateOracle p.index = none)
    (htm : p.gate_timeout = some 0) :
    runPhase cfg input seed p acc =
      PhaseStep.halt ⟨acc.outputs,
        AuditChain.append
          (AuditChain.append acc.chain EventType.phase_started
            (Nat.pair p.index acc.clock))
          EventType.phase_blocked (Nat.pair p.index 1),
        acc.clock + 2⟩ (FailureReason.GateRejected p.index) := by
  simp only [runPhase]
  rw [heth, hreq, hauto, horc, htm]
  rfl

theorem runPhase_next_shape {cfg : EngineCfg} {input seed : Nat}
    {p : PhaseDefinition} {acc acc2 : RunAcc}
    (h : runPhase cfg input seed p acc = PhaseStep.next acc2) :
    acc2.outputs.length = acc.outputs.length + 1 ∧
    countE EventType.phase_started acc2.chain =
      countE EventType.phase_started acc.chain + 1 ∧
    countE EventType.phase_completed acc2.chain =
      countE EventType.phase_completed acc.chain + 1 ∧
    countE EventType.gate_decision acc2.chain =
      countE EventType.gate_decision acc.chain +
        (if p.requires_gate then 1 else 0) ∧
    countE EventType.phase_blocked acc2.chain =
      countE EventType.phase_blocked acc.chain ∧
    countE EventType.pipeline_completed acc2.chain =
      countE EventType.pipeline_completed acc.chain ∧
    countE EventType.pipeline_failed acc2.chain =
      countE EventType.pipeline_failed acc.chain ∧
    acc2.chain.length = acc.chain.length + 2 +
      (if p.requires_gate then 1 else 0) ∧
    (validChain acc.chain → validChain acc2.chain) := by
  simp only [runPhase] at h
  split at h
  · exact absurd h (by simp)
  · split at h
    · rename_i hreq
      split at h
      · exact absurd h (by simp)
      · rename_i gs hgo
        split at h
        · rename_i hadv
          cases gs with
          | PENDING => exact absurd hadv (by simp [gateAdvances])
          | REJECTED => exact absurd hadv (by simp [gateAdvances])
          | TIMED_OUT => exact absurd hadv (by simp [gateAdvances])
          | APPROVED =>
              injection h with h2
              subst h2
              refine ⟨by simp, ?_, ?_, ?_, ?_, ?_, ?_, ?_,
                fun hv => append_valid (append_valid (append_valid hv _ _) _ _)
                  _ _⟩ <;>
                simp [countE_append, AuditChain.append_length, hreq]
          | AUTO_APPROVED =>
              injection h with h2
              subst h2
              refine ⟨by simp, ?_, ?_, ?_, ?_, ?_, ?_, ?_,
                fun hv => append_valid (append_valid (append_valid hv _ _) _ _)
                  _ _⟩ <;>
                simp [countE_append, AuditChain.append_length, hreq]
        · exact absurd h (by simp)
    · rename_i hreq
      injection h with h2
      subst h2
      refine ⟨by simp, ?_, ?_, ?_, ?_, ?_, ?_, ?_,
        fun hv => append_valid (append_valid hv _ _) _ _⟩ <;>
        simp [countE_append, AuditChain.append_length, hreq]

theorem runPhases_completed_shape (cfg : EngineCfg) (input seed : Nat) :
    ∀ (ps : List PhaseDefinition) (acc acc2 : RunAcc),
    runPhases cfg input seed ps acc = RunResult.completed acc2 →
    acc2.outputs.length = acc.outputs.length + ps.length ∧
    countE EventType.phase_started acc2.chain =
      countE EventType.phase_started acc.chain + ps.length ∧
    countE EventType.phase_completed acc2.chain =
      countE EventType.phase_completed acc.chain + ps.length ∧
    countE EventType.gate_decision acc2.chain =
      countE EventType.gate_decision acc.chain +
        (ps.filter (fun p => p.requires_gate)).length ∧
    countE EventType.phase_blocked acc2.chain =
      countE EventType.phase_blocked acc.chain ∧
    countE EventType.pipeline_completed acc2.chain =
      countE EventType.pipeline_completed acc.chain ∧
    countE EventType.pipeline_failed acc2.chain =
      countE EventType.pipeline_failed acc.chain ∧
    acc2.chain.length = acc.chain.length + 2 * ps.length +
      (ps.filter (fun p => p.requires_gate)).length ∧
    (validChain acc.chain → validChain acc2.chain) := by
  intro ps
  induction ps with
  | nil =>
      intro acc acc2 h
      simp only [runPhases] at h
      injection h with h2
      subst h2
      simp [List.filter]
  | cons p ps ih =>
      intro acc acc2 h
      simp only [runPhases] at h
      split at h
      · rename_i acc1 hstep
        obtain ⟨o1, s1, c1, g1, b1, pc1, pf1, l1, v1⟩ := runPhase_next_shape hstep
        obtain ⟨o2, s2, c2, g2, b2, pc2, pf2, l2, v2⟩ := ih acc1 acc2 h
        have hfl : ((p :: ps).filter (fun q => q.requires_gate)).length =
            (if p.requires_gate then 1 else 0) +
              (ps.filter (fun q => q.requires_gate)).length := by
          cases hr : p.requires_gate <;> simp [List.filter_cons, hr] <;> omega
        simp only [List.length_cons, hfl]
        exact ⟨by omega, by omega, by omega, by omega, by omega, by omega,
          by omega, by omega, fun hv => v2 (v1 hv)⟩
      · exact absurd h (by simp)
      · exact absurd h (by simp)

theorem runPhase_advance (cfg : EngineCfg) (input seed : Nat)
    (p : PhaseDefinition) (acc : RunAcc)
    (heth : (cfg.ethics p.index (cfg.compute p.index
      (acc.outputs.map PhaseOutcome.result_payload) input seed)).passed = true)
    (hgate : p.requires_gate = true →
      gateOutcome cfg.auto_approve cfg.rh p.gate_role p.gate_timeout
        (cfg.gateOracle p.index) = some GateStatus.APPROVED ∨
      gateOutcome cfg.auto_approve cfg.rh p.gate_role p.gate_timeout
        (cfg.gateOracle p.index) = some GateStatus.AUTO_APPROVED) :
    ∃ acc2, runPhase cfg input seed p acc = PhaseStep.next acc2 := by
  simp only [runPhase]
  rw [heth]
  cases hreq : p.requires_gate with
  | false => exact ⟨_, rfl⟩
  | true =>
      rcases hgate hreq with hgo | hgo
      · rw [hgo]
        exact ⟨_, rfl⟩
      · rw [hgo]
        exact ⟨_, rfl⟩

theorem runPhases_all_advance (cfg : EngineCfg) (input seed : Nat)
    (heth : ∀ i q, (cfg.ethics i q).passed = true) :
    ∀ (ps : List PhaseDefinition) (acc : RunAcc),
    (∀ p ∈ ps, p.requires_gate = true →
      gateOutcome cfg.auto_approve cfg.rh p.gate_role p.gate_timeout
        (cfg.gateOracle p.index) = some GateStatus.APPROVED ∨
      gateOutcome cfg.auto_approve cfg.rh p.gate_role p.gate_timeout
        (cfg.gateOracle p.index) = some GateStatus.AUTO_APPROVED) →
    ∃ acc2, runPhases cfg input seed ps acc = RunResult.completed acc2 := by
  intro ps
  induction ps with
  | nil => intro acc _; exact ⟨acc, rfl⟩
  | cons p ps ih =>
      intro acc hg
      obtain ⟨acc1, hstep⟩ := runPhase_advance cfg input seed p acc
        (heth _ _) (hg p (List.mem_cons_self p ps))
      obtain ⟨acc2, h2⟩ := ih acc1
        (fun q hq => hg q (List.mem_cons_of_mem p hq))
      refine ⟨acc2, ?_⟩
      simp only [runPhases, hstep]
      exact h2

theorem gateOutcome_approve (rh : String → String → Bool) (role : String)
    (timeout : Option Nat) (a : GateArrival)
    (hd : a.decision = Decision.approve) (hrh : rh a.actor role = true)
    (hw : within a.time timeout = true) :
    gateOutcome false rh role timeout (some a) = some GateStatus.APPROVED := by
  simp only [gateOutcome, permits, hrh, hw, Bool.or_true, Bool.true_and, hd]
  rfl

/-- Claim C3: when the run reaches a phase whose ethics verdict has
`passed = false`, the run halts at that phase: the returned result has
`success = false` with `failure_reason` naming the phase, the run status is
FAILED, no outcome or `phase_started` record for any later phase exists, and
exactly one terminal `pipeline_failed` record is appended (as the last
record). -/
theorem claim_C3_ethics_violation (cfg : EngineCfg) (st : OrchState)
    (run_id : Nat) (pipeline_id : String) (input : Nat)
    (pre post : List PhaseDefinition) (p : PhaseDefinition) (acc : RunAcc)
    (hph : cfg.phases = pre ++ p :: post)
    (hact : isActive st = false)
    (hchain : st.chain = [])
    (hpre : runPhases cfg input st.repro.seed pre ⟨[], [], 0⟩ =
      RunResult.completed acc)
    (heth : (cfg.ethics p.index (cfg.compute p.index
      (acc.outputs.map PhaseOutcome.result_payload) input
        st.repro.seed)).passed = false)
    (hidx : p.index = pre.length) :
    ∃ st2 : OrchState,
      Orchestrator.execute cfg st run_id pipeline_id input =
        (some (Except.ok ⟨false, run_id, acc.outputs,
          some (FailureReason.EthicsViolation p.index)⟩), st2) ∧
      (∃ r2 : PipelineRun, st2.run = some r2 ∧ r2.status = RunStatus.FAILED) ∧
      countE EventType.phase_started st2.chain = p.index + 1 ∧
      countE EventType.pipeline_failed st2.chain = 1 ∧
      acc.outputs.length = p.index ∧
      Option.map AuditRecord.event_type st2.chain.getLast? =
        some EventType.pipeline_failed := by
  have hstep := runPhase_ethics_halt cfg input st.repro.seed p acc heth
  have hrun := runPhases_append cfg input st.repro.seed pre (p :: post)
    ⟨[], [], 0⟩
  rw [hpre] at hrun
  simp only [runPhases, hstep] at hrun
  obtain ⟨o2, s2, c2, g2, b2, pc2, pf2, l2, v2⟩ :=
    runPhases_completed_shape cfg input st.repro.seed pre ⟨[], [], 0⟩ acc hpre
  have hexec : Orchestrator.execute cfg st run_id pipeline_id input =
      (some (Except.ok ⟨false, run_id, acc.outputs,
        some (FailureReason.EthicsViolation p.index)⟩),
        ⟨some ⟨run_id, pipeline_id, st.repro.seed, p.index, acc.outputs,
          RunStatus.FAILED⟩,
          AuditChain.append
            (AuditChain.append
              (AuditChain.append acc.chain EventType.phase_started
                (Nat.pair p.index acc.clock))
              EventType.phase_blocked (Nat.pair p.index 0))
            EventType.pipeline_failed (Nat.pair p.index 1),
          st.repro⟩) := by
    unfold Orchestrator.execute
    rw [hact, hph, hchain, hrun]
    rfl
  refine ⟨_, hexec, ⟨_, rfl, rfl⟩, ?_, ?_, ?_, ?_⟩
  · have hs0 : countE EventType.phase_started
        ((⟨[], [], 0⟩ : RunAcc).chain) = 0 := rfl
    rw [hs0] at s2
    simp [countE_append, s2, hidx]
  · have hf0 : countE EventType.pipeline_failed
        ((⟨[], [], 0⟩ : RunAcc).chain) = 0 := rfl
    rw [hf0] at pf2
    simp [countE_append, pf2]
  · have ho0 : ((⟨[], [], 0⟩ : RunAcc).outputs).length = 0 := rfl
    rw [ho0] at o2
    omega
  · show Option.map AuditRecord.event_type
      (List.getLast? (_ ++ [_])) = some EventType.pipeline_failed
    rw [List.getLast?_concat]
    rfl

/-- Witness for C3: a one-phase pipeline whose ethics verdict fails halts
with `EthicsViolation` at phase 0 and a single terminal record. -/
theorem claim_C3_witness :
    ∃ st2 : OrchState,
      Orchestrator.execute
        ⟨[⟨0, "phase0", false, "", none⟩], fun _ _ => ⟨0, false⟩,
          fun _ _ => ⟨0, 1⟩, fun _ _ => false, fun _ _ _ _ => 0, false,
          fun _ => none⟩
        ⟨none, [], ⟨7, []⟩⟩ 1 "demo" 3 =
        (some (Except.ok ⟨false, 1, [],
          some (FailureReason.EthicsViolation 0)⟩), st2) ∧
      (∃ r2 : PipelineRun, st2.run = some r2 ∧ r2.status = RunStatus.FAILED) ∧
      countE EventType.phase_started st2.chain = 0 + 1 ∧
      countE EventType.pipeline_failed st2.chain = 1 ∧
      List.length ([] : List PhaseOutcome) = 0 ∧
      Option.map AuditRecord.event_type st2.chain.getLast? =
        some EventType.pipeline_failed :=
  claim_C3_ethics_violation
    ⟨[⟨0, "phase0", false, "", none⟩], fun _ _ => ⟨0, false⟩,
      fun _ _ => ⟨0, 1⟩, fun _ _ => false, fun _ _ _ _ => 0, false,
      fun _ => none⟩
    ⟨none, [], ⟨7, []⟩⟩ 1 "demo" 3 [] [] ⟨0, "phase0", false, "", none⟩
    ⟨[], [], 0⟩ rfl rfl rfl rfl rfl rfl

/-- Claim C4: a gated phase configured with a 0-length timeout that receives
no decision resolves to TIMED_OUT (never stays pending), TIMED_OUT is treated
exactly like REJECTED by the advancement policy, and the run fails with a
`GateRejected` failure reason referencing that phase. -/
theorem claim_C4_gate_timeout (cfg : EngineCfg) (st : OrchState)
    (run_id : Nat) (pipeline_id : String) (input : Nat)
    (pre post : List PhaseDefinition) (p : PhaseDefinition) (acc : RunAcc)
    (hph : cfg.phases = pre ++ p :: post)
    (hact : isActive st = false)
    (hchain : st.chain = [])
    (hpre : runPhases cfg input st.repro.seed pre ⟨[], [], 0⟩ =
      RunResult.completed acc)
    (heth : (cfg.ethics p.index (cfg.compute p.index
      (acc.outputs.map PhaseOutcome.result_payload) input
        st.repro.seed)).passed = true)
    (hreq : p.requires_gate = true)
    (hauto : cfg.auto_approve = false)
    (horc : cfg.gateOracle p.index = none)
    (htm : p.gate_timeout = some 0) :
    gateOutcome false cfg.rh p.gate_role (some 0) none =
      some GateStatus.TIMED_OUT ∧
    gateAdvances GateStatus.TIMED_OUT = gateAdvances GateStatus.REJECTED ∧
    ∃ st2 : OrchState,
      Orchestrator.execute cfg st run_id pipeline_id input =
        (some (Except.ok ⟨false, run_id, acc.outputs,
          some (FailureReason.GateRejected p.index)⟩), st2) ∧
      (∃ r2 : PipelineRun, st2.run = some r2 ∧ r2.status = RunStatus.FAILED) ∧
      countE EventType.pipeline_failed st2.chain = 1 := by
  have hstep := runPhase_timeout_halt cfg input st.repro.seed p acc heth hreq
    hauto horc htm
  have hrun := runPhases_append cfg input st.repro.seed pre (p :: post)
    ⟨[], [], 0⟩
  rw [hpre] at hrun
  simp only [runPhases, hstep] at hrun
  obtain ⟨o2, s2, c2, g2, b2, pc2, pf2, l2, v2⟩ :=
    runPhases_completed_shape cfg input st.repro.seed pre ⟨[], [], 0⟩ acc hpre
  have hexec : Orchestrator.execute cfg st run_id pipeline_id input =
      (some (Except.ok ⟨false, run_id, acc.outputs,
        some (FailureReason.GateRejected p.index)⟩),
        ⟨some ⟨run_id, pipeline_id, st.repro.seed, p.index, acc.outputs,
          RunStatus.FAILED⟩,
          AuditChain.append
            (AuditChain.append
              (AuditChain.append acc.chain EventType.phase_started
                (Nat.pair p.index acc.clock))
              EventType.phase_blocked (Nat.pair p.index 1))
            EventType.pipeline_failed (Nat.pair p.index 0),
          st.repro⟩) := by
    unfold Orchestrator.execute
    rw [hact, hph, hchain, hrun]
    rfl
  refine ⟨rfl, rfl, _, hexec, ⟨_, rfl, rfl⟩, ?_⟩
  have hf0 : countE EventType.pipeline_failed
      ((⟨[], [], 0⟩ : RunAcc).chain) = 0 := rfl
  rw [hf0] at pf2
  simp [countE_append, pf2]

/-- Witness for C4: a single gated phase with a 0-length timeout and no
decision fails the run with `GateRejected` at phase 0. -/
theorem claim_C4_witness :
    gateOutcome false (fun _ _ => false) "admin" (some 0) none =
      some GateStatus.TIMED_OUT ∧
    gateAdvances GateStatus.TIMED_OUT = gateAdvances GateStatus.REJECTED ∧
    ∃ st2 : OrchState,
      Orchestrator.execute
        ⟨[⟨0, "gated0", true, "admin", some 0⟩], fun _ _ => ⟨1, true⟩,
          fun _ _ => ⟨0, 1⟩, fun _ _ => false, fun _ _ _ _ => 0, false,
          fun _ => none⟩
        ⟨none, [], ⟨7, []⟩⟩ 1 "demo" 3 =
        (some (Except.ok ⟨false, 1, [],
          some (FailureReason.GateRejected 0)⟩), st2) ∧
      (∃ r2 : PipelineRun, st2.run = some r2 ∧ r2.status = RunStatus.FAILED) ∧
      countE EventType.pipeline_failed st2.chain = 1 :=
  claim_C4_gate_timeout
    ⟨[⟨0, "gated0", true, "admin", some 0⟩], fun _ _ => ⟨1, true⟩,
      fun _ _ => ⟨0, 1⟩, fun _ _ => false, fun _ _ _ _ => 0, false,
      fun _ => none⟩
    ⟨none, [], ⟨7, []⟩⟩ 1 "demo" 3 [] [] ⟨0, "gated0", true, "admin", some 0⟩
    ⟨[], [], 0⟩ rfl rfl rfl rfl rfl rfl rfl rfl rfl

/-- Claim C8: an 8-phase run with exactly 2 gated phases, all ethics verdicts
passing, and every gate approved in time by an actor whose role outranks the
required role, succeeds with an audit trail of exactly 19 records —
8 `phase_started`, 8 `phase_completed`, 2 `gate_decision` and
1 `pipeline_completed` — and the chain verifies valid. -/
theorem claim_C8_full_run (cfg : EngineCfg) (st : OrchState)
    (run_id : Nat) (pipeline_id : String) (input : Nat)
    (hlen : cfg.phases.length = 8)
    (hgated : (cfg.phases.filter (fun p => p.requires_gate)).length = 2)
    (heth : ∀ i q, (cfg.ethics i q).passed = true)
    (hauto : cfg.auto_approve = false)
    (hgates : ∀ p ∈ cfg.phases, p.requires_gate = true →
      ∃ a : GateArrival, cfg.gateOracle p.index = some a ∧
        a.decision = Decision.approve ∧ cfg.rh a.actor p.gate_role = true ∧
        within a.time p.gate_timeout = true)
    (hrun : st.run = none) (hchain : st.chain = []) :
    ∃ (st2 : OrchState) (outs : List PhaseOutcome),
      Orchestrator.execute cfg st run_id pipeline_id input =
        (some (Except.ok ⟨true, run_id, outs, none⟩), st2) ∧
      st2.chain.length = 19 ∧
      countE EventType.phase_started st2.chain = 8 ∧
      countE EventType.phase_completed st2.chain = 8 ∧
      countE EventType.gate_decision st2.chain = 2 ∧
      countE EventType.pipeline_completed st2.chain = 1 ∧
      outs.length = 8 ∧
      (get_audit_trail st2).2 = true := by
  have hact : isActive st = false := by
    unfold isActive
    rw [hrun]
  have hgacc : ∀ p ∈ cfg.phases, p.requires_gate = true →
      gateOutcome cfg.auto_approve cfg.rh p.gate_role p.gate_timeout
        (cfg.gateOracle p.index) = some GateStatus.APPROVED ∨
      gateOutcome cfg.auto_approve cfg.rh p.gate_role p.gate_timeout
        (cfg.gateOracle p.index) = some GateStatus.AUTO_APPROVED := by
    intro p hp hreqp
    left
    obtain ⟨a, ha1, ha2, ha3, ha4⟩ := hgates p hp hreqp
    rw [hauto, ha1]
    exact gateOutcome_approve cfg.rh p.gate_role p.gate_timeout a ha2 ha3 ha4
  obtain ⟨acc2, hrunall⟩ := runPhases_all_advance cfg input st.repro.seed heth
    cfg.phases ⟨[], [], 0⟩ hgacc
  obtain ⟨o2, s2, c2, g2, b2, pc2, pf2, l2, v2⟩ :=
    runPhases_completed_shape cfg input st.repro.seed cfg.phases ⟨[], [], 0⟩
      acc2 hrunall
  have hexec : Orchestrator.execute cfg st run_id pipeline_id input =
      (some (Except.ok ⟨true, run_id, acc2.outputs, none⟩),
        ⟨some ⟨run_id, pipeline_id, st.repro.seed, cfg.phases.length,
          acc2.outputs, RunStatus.COMPLETED⟩,
          AuditChain.append acc2.chain EventType.pipeline_completed
            (Nat.pair cfg.phases.length 0),
          st.repro⟩) := by
    unfold Orchestrator.execute
    rw [hact, hchain, hrunall]
  have hvempty : validChain ([] : AuditChain) := rfl
  have hvalid2 : validChain acc2.chain := v2 hvempty
  refine ⟨_, acc2.outputs, hexec, ?_, ?_, ?_, ?_, ?_, ?_, ?_⟩
  · show (AuditChain.append acc2.chain EventType.pipeline_completed
      (Nat.pair cfg.phases.length 0)).length = 19
    rw [AuditChain.append_length]
    rw [hlen, hgated] at l2
    simpa using l2
  · show countE EventType.phase_started (AuditChain.append acc2.chain
      EventType.pipeline_completed (Nat.pair cfg.phases.length 0)) = 8
    rw [countE_append]
    rw [hlen] at s2
    simpa using s2
  · show countE EventType.phase_completed (AuditChain.append acc2.chain
      EventType.pipeline_completed (Nat.pair cfg.phases.length 0)) = 8
    rw [countE_append]
    rw [hlen] at c2
    simpa using c2
  · show countE EventType.gate_decision (AuditChain.append acc2.chain
      EventType.pipeline_completed (Nat.pair cfg.phases.length 0)) = 2
    rw [countE_append]
    rw [hgated] at g2
    simpa using g2
  · show countE EventType.pipeline_completed (AuditChain.append acc2.chain
      EventType.pipeline_completed (Nat.pair cfg.phases.length 0)) = 1
    rw [countE_append]
    simpa using pc2
  · rw [hlen] at o2
    simpa using o2
  · show (get_audit_trail _).2 = true
    unfold get_audit_trail
    exact verify_fst_of_valid (append_valid hvalid2 _ _)

/-- A concrete 8-phase configuration with two gated phases, used to witness
C8. -/
def demoPhases : List PhaseDefinition :=
  [⟨0, "p0", false, "", none⟩, ⟨1, "p1", false, "", none⟩,
    ⟨2, "p2", true, "admin", some 5⟩, ⟨3, "p3", false, "", none⟩,
    ⟨4, "p4", false, "", none⟩, ⟨5, "p5", true, "admin", some 5⟩,
    ⟨6, "p6", false, "", none⟩, ⟨7, "p7", false, "", none⟩]

/-- A concrete engine configuration over `demoPhases`: ethics always passes,
gates are approved at once by the "root" role which outranks everything. -/
def demoCfg : EngineCfg :=
  ⟨demoPhases, fun _ _ => ⟨1, true⟩, fun _ _ => ⟨0, 1⟩, fun _ _ => true,
    fun i _ inp s => i + inp + s, false,
    fun _ => some ⟨0, Decision.approve, "root", "ok"⟩⟩

/-- Witness for C8: the concrete configuration completes with 19 audit
records and a valid chain. -/
theorem claim_C8_witness :
    ∃ (st2 : OrchState) (outs : List PhaseOutcome),
      Orchestrator.execute demoCfg ⟨none, [], ⟨42, []⟩⟩ 1 "demo" 3 =
        (some (Except.ok ⟨true, 1, outs, none⟩), st2) ∧
      st2.chain.length = 19 ∧
      countE EventType.phase_started st2.chain = 8 ∧
      countE EventType.phase_completed st2.chain = 8 ∧
      countE EventType.gate_decision st2.chain = 2 ∧
      countE EventType.pipeline_completed st2.chain = 1 ∧
      outs.length = 8 ∧
      (get_audit_trail st2).2 = true :=
  claim_C8_full_run demoCfg ⟨none, [], ⟨42, []⟩⟩ 1 "demo" 3 rfl rfl
    (fun _ _ => rfl) rfl
    (by
      intro p hp hreqp
      refine ⟨⟨0, Decision.approve, "root", "ok"⟩, rfl, rfl, rfl, ?_⟩
      simp only [demoCfg, demoPhases, List.mem_cons, List.not_mem_nil,
        or_false] at hp
      rcases hp with rfl | rfl | rfl | rfl | rfl | rfl | rfl | rfl <;> rfl)
    rfl rfl

/-- The chain-independent content of a phase step: a constructor tag, the
outcomes, the clock and the failure reason. -/
def stepSummary : PhaseStep → Nat × List PhaseOutcome × Nat × Option FailureReason
  | .next a => (0, a.outputs, a.clock, none)
  | .halt a r => (1, a.outputs, a.clock, some r)
  | .stuck a => (2, a.outputs, a.clock, none)

/-- The chain-independent content of a run result. -/
def runSummary : RunResult → Nat × List PhaseOutcome × Option FailureReason
  | .completed a => (0, a.outputs, none)
  | .failed a r => (1, a.outputs, some r)
  | .blocked a k => (2 + k, a.outputs, none)

theorem runPhase_auto_congr (cfg1 cfg2 : EngineCfg) (input seed : Nat)
    (p : PhaseDefinition) (acc1 acc2 : RunAcc)
    (hcomp : cfg1.compute = cfg2.compute)
    (heth : ∀ i q, cfg1.ethics i q = cfg2.ethics i q)
    (hres : ∀ i q, cfg1.resource i q = cfg2.resource i q)
    (ha1 : cfg1.auto_approve = true) (ha2 : cfg2.auto_approve = true)
    (ho : acc1.outputs = acc2.outputs) (hc : acc1.clock = acc2.clock) :
    stepSummary (runPhase cfg1 input seed p acc1) =
      stepSummary (runPhase cfg2 input seed p acc2) := by
  simp only [runPhase, ho, hc, hcomp, heth, hres, ha1, ha2]
  cases (cfg2.ethics p.index (cfg2.compute p.index
      (acc2.outputs.map PhaseOutcome.result_payload) input seed)).passed with
  | false => simp [stepSummary]
  | true =>
      cases p.requires_gate with
      | false => simp [stepSummary]
      | true => simp [gateOutcome, gateAdvances, stepSummary]

theorem runPhases_auto_congr (cfg1 cfg2 : EngineCfg) (input seed : Nat)
    (hcomp : cfg1.compute = cfg2.compute)
    (heth : ∀ i q, cfg1.ethics i q = cfg2.ethics i q)
    (hres : ∀ i q, cfg1.resource i q = cfg2.resource i q)
    (ha1 : cfg1.auto_approve = true) (ha2 : cfg2.auto_approve = true) :
    ∀ (ps : List PhaseDefinition) (acc1 acc2 : RunAcc),
    acc1.outputs = acc2.outputs → acc1.clock = acc2.clock →
    runSummary (runPhases cfg1 input seed ps acc1) =
      runSummary (runPhases cfg2 input seed ps acc2) := by
  intro ps
  induction ps with
  | nil =>
      intro a1 a2 ho hc
      simp [runPhases, runSummary, ho]
  | cons p ps ih =>
      intro a1 a2 ho hc
      have hstep := runPhase_auto_congr cfg1 cfg2 input seed p a1 a2 hcomp
        heth hres ha1 ha2 ho hc
      simp only [runPhases]
      revert hstep
      generalize runPhase cfg1 input seed p a1 = s1
      generalize runPhase cfg2 input seed p a2 = s2
      intro hstep
      cases s1 with
      | next b1 =>
          cases s2 with
          | next b2 =>
              simp only [stepSummary, Prod.mk.injEq] at hstep
              exact ih b1 b2 hstep.2.1 hstep.2.2.1
          | halt b2 r2 => simp [stepSummary] at hstep
          | stuck b2 => simp [stepSummary] at hstep
      | halt b1 r1 =>
          cases s2 with
          | next b2 => simp [stepSummary] at hstep
          | halt b2 r2 =>
              simp only [stepSummary, Prod.mk.injEq, Option.some.injEq]
                at hstep
              simp [runSummary, hstep.2.1, hstep.2.2.2]
          | stuck b2 => simp [stepSummary] at hstep
      | stuck b1 =>
          cases s2 with
          | next b2 => simp [stepSummary] at hstep
          | halt b2 r2 => simp [stepSummary] at hstep
          | stuck b2 =>
              simp only [stepSummary, Prod.mk.injEq] at hstep
              simp [runSummary, hstep.2.1]

theorem runPhase_auto_not_stuck (cfg : EngineCfg)
    (ha : cfg.auto_approve = true) (input seed : Nat) (p : PhaseDefinition)
    (acc b : RunAcc) : runPhase cfg input seed p acc ≠ PhaseStep.stuck b := by
  simp only [runPhase, ha]
  cases (cfg.ethics p.index (cfg.compute p.index
      (acc.outputs.map PhaseOutcome.result_payload) input seed)).passed with
  | false => simp
  | true =>
      cases p.requires_gate with
      | false => simp
      | true => simp [gateOutcome, gateAdvances]

theorem runPhases_auto_not_blocked (cfg : EngineCfg)
    (ha : cfg.auto_approve = true) (input seed : Nat) :
    ∀ (ps : List PhaseDefinition) (acc b : RunAcc) (k : Nat),
    runPhases cfg input seed ps acc ≠ RunResult.blocked b k := by
  intro ps
  induction ps with
  | nil => intro acc b k h; exact RunResult.noConfusion h
  | cons p ps ih =>
      intro acc b k h
      simp only [runPhases] at h
      revert h
      generalize hq : runPhase cfg input seed p acc = s
      cases s with
      | next a => intro h; exact ih a b k h
      | halt a r => intro h; exact RunResult.noConfusion h
      | stuck a =>
          intro _h
          exact absurd hq (runPhase_auto_not_stuck cfg ha input seed p acc a)

/-- Claim C2: two `execute` runs with the same seed, input, phase list, pure
computation and provider responses, both with all gates auto-approved,
produce identical `phase_outputs` sequences (and the same success flag and
failure reason), even if the role hierarchy, the external decision channel,
the run and pipeline identifiers or the pre-existing audit chains differ. -/
theorem claim_C2_determinism (cfg1 cfg2 : EngineCfg) (st1 st2 : OrchState)
    (rid1 rid2 : Nat) (pid1 pid2 : String) (input : Nat)
    (hph : cfg1.phases = cfg2.phases)
    (hcomp : cfg1.compute = cfg2.compute)
    (heth : ∀ i q, cfg1.ethics i q = cfg2.ethics i q)
    (hres : ∀ i q, cfg1.resource i q = cfg2.resource i q)
    (ha1 : cfg1.auto_approve = true) (ha2 : cfg2.auto_approve = true)
    (hseed : st1.repro.seed = st2.repro.seed)
    (hact1 : isActive st1 = false) (hact2 : isActive st2 = false) :
    ∃ (r1 r2 : PipelineResult),
      (Orchestrator.execute cfg1 st1 rid1 pid1 input).1 =
        some (Except.ok r1) ∧
      (Orchestrator.execute cfg2 st2 rid2 pid2 input).1 =
        some (Except.ok r2) ∧
      r1.phase_outcomes = r2.phase_outcomes ∧
      r1.success = r2.success ∧
      r1.failure_reason = r2.failure_reason := by
  unfold Orchestrator.execute
  rw [hact1, hact2, hph, ← hseed]
  have hsum := runPhases_auto_congr cfg1 cfg2 input st1.repro.seed hcomp heth
    hres ha1 ha2 cfg2.phases ⟨[], st1.chain, 0⟩ ⟨[], st2.chain, 0⟩ rfl rfl
  have hnb1 := runPhases_auto_not_blocked cfg1 ha1 input st1.repro.seed
    cfg2.phases ⟨[], st1.chain, 0⟩
  have hnb2 := runPhases_auto_not_blocked cfg2 ha2 input st1.repro.seed
    cfg2.phases ⟨[], st2.chain, 0⟩
  revert hsum hnb1 hnb2
  generalize runPhases cfg1 input st1.repro.seed cfg2.phases
    ⟨[], st1.chain, 0⟩ = R1
  generalize runPhases cfg2 input st1.repro.seed cfg2.phases
    ⟨[], st2.chain, 0⟩ = R2
  intro hsum hnb1 hnb2
  cases R1 with
  | completed a1 =>
      cases R2 with
      | completed a2 =>
          simp only [runSummary, Prod.mk.injEq] at hsum
          exact ⟨⟨true, rid1, a1.outputs, none⟩,
            ⟨true, rid2, a2.outputs, none⟩, rfl, rfl, hsum.2.1, rfl, rfl⟩
      | failed a2 r2 => simp [runSummary] at hsum
      | blocked a2 k2 => exact absurd rfl (hnb2 a2 k2)
  | failed a1 r1 =>
      cases R2 with
      | completed a2 => simp [runSummary] at hsum
      | failed a2 r2 =>
          simp only [runSummary, Prod.mk.injEq, Option.some.injEq] at hsum
          exact ⟨⟨false, rid1, a1.outputs, some r1⟩,
            ⟨false, rid2, a2.outputs, some r2⟩, rfl, rfl, hsum.2.1, rfl,
            by simp [hsum.2.2]⟩
      | blocked a2 k2 => exact absurd rfl (hnb2 a2 k2)
  | blocked a1 k1 => exact absurd rfl (hnb1 a1 k1)

/-- Witness for C2: two auto-approved runs that differ in role hierarchy,
decision channel, identifiers and pre-existing audit chain still yield the
same outcome sequence. -/
theorem claim_C2_witness :
    ∃ (r1 r2 : PipelineResult),
      (Orchestrator.execute
        ⟨demoPhases, fun _ _ => ⟨1, true⟩, fun _ _ => ⟨0, 1⟩,
          fun _ _ => true, fun i _ inp s => i + inp + s, true,
          fun _ => some ⟨0, Decision.approve, "root", "ok"⟩⟩
        ⟨none, [], ⟨42, []⟩⟩ 1 "left" 3).1 = some (Except.ok r1) ∧
      (Orchestrator.execute
        ⟨demoPhases, fun _ _ => ⟨1, true⟩, fun _ _ => ⟨0, 1⟩,
          fun _ _ => false, fun i _ inp s => i + inp + s, true,
          fun _ => none⟩
        ⟨none, buildChain [(EventType.gate_decision, 3)], ⟨42, []⟩⟩ 2
          "right" 3).1 = some (Except.ok r2) ∧
      r1.phase_outcomes = r2.phase_outcomes ∧
      r1.success = r2.success ∧
      r1.failure_reason = r2.failure_reason :=
  claim_C2_determinism
    ⟨demoPhases, fun _ _ => ⟨1, true⟩, fun _ _ => ⟨0, 1⟩, fun _ _ => true,
      fun i _ inp s => i + inp + s, true,
      fun _ => some ⟨0, Decision.approve, "root", "ok"⟩⟩
    ⟨demoPhases, fun _ _ => ⟨1, true⟩, fun _ _ => ⟨0, 1⟩, fun _ _ => false,
      fun i _ inp s => i + inp + s, true, fun _ => none⟩
    ⟨none, [], ⟨42, []⟩⟩
    ⟨none, buildChain [(EventType.gate_decision, 3)], ⟨42, []⟩⟩
    1 2 "left" "right" 3 rfl rfl (fun _ _ => rfl) (fun _ _ => rfl) rfl rfl
    rfl rfl rfl

/-! ## CLI lemmas and claims -/

theorem pyGetD_of_pySub {j : Json} {k : String} {v : Json} (dflt : Json)
    (h : pySub j k = some v) : pyGetD j k dflt = some v := by
  cases j with
  | obj fs =>
      simp only [pySub] at h
      simp only [pyGetD, h]
  | null => simp [pySub] at h
  | bool b => simp [pySub] at h
  | num n => simp [pySub] at h
  | str s => simp [pySub] at h
  | arr xs => simp [pySub] at h

theorem pyGet_of_pySub {j : Json} {k : String} {v : Json}
    (h : pySub j k = some v) : pyGet j k = some v := by
  cases j with
  | obj fs =>
      simp only [pySub] at h
      simp only [pyGet, h]
  | null => simp [pySub] at h
  | bool b => simp [pySub] at h
  | num n => simp [pySub] at h
  | str s => simp [pySub] at h
  | arr xs => simp [pySub] at h

theorem hrgFlag_of_ne_null {v : Json} (b : Bool) (h : v ≠ Json.null) :
    hrgFlag v b = true := by
  cases v with
  | null => exact absurd rfl h
  | bool x => rfl
  | num x => rfl
  | str x => rfl
  | arr x => rfl
  | obj x => rfl

theorem cmd_run_config_file (parse : String → Json) (args : RunArgs)
    (config : Json) (ep : EngineParams)
    (hfile : args.inputs_file = some config)
    (hok : cmd_run_config parse args = some ep) :
    ∃ inputs pid seedv hrg_cfg auto ethics_cfg en eeth,
      (truthyOpt args.inputs = true →
        parse (args.inputs.getD "") = inputs) ∧
      (truthyOpt args.inputs = false →
        pyGetD config "inputs" config = some inputs) ∧
      pyGetD config "pipeline_id" (Json.str args.pipeline_id) = some pid ∧
      pyGetD config "random_seed" (seedJson args.seed) = some seedv ∧
      pyGetD config "hrg_config" (Json.obj []) = some hrg_cfg ∧
      pyGet hrg_cfg "auto_approve" = some auto ∧
      pyGetD config "ethics_config" (Json.obj []) = some ethics_cfg ∧
      pyGet ethics_cfg "enabled" = some en ∧
      ethicsFlag ethics_cfg en args.no_ethics = some eeth ∧
      ep = ⟨pid, seedv, hrgFlag auto args.no_hrg, eeth, inputs⟩ := by
  simp only [cmd_run_config, hfile] at hok
  simp only [Option.bind_eq_some, Option.map_eq_some'] at hok
  obtain ⟨inputs, hin, pid, hpid, seedv, hsv, hrg_cfg, hg, auto, hv,
    ethics_cfg, hec, en, hen, eeth, hee, hep⟩ := hok
  refine ⟨inputs, pid, seedv, hrg_cfg, auto, ethics_cfg, en, eeth,
    ?_, ?_, hpid, hsv, hg, hv, hec, hen, hee, hep.symm⟩
  · intro ht
    rw [ht] at hin
    simpa using hin
  · intro ht
    rw [ht] at hin
    simpa using hin

/-- Claim C9: with an `--inputs-file` whose JSON carries an `hrg_config`
object with a non-null `auto_approve` value (true or false alike), the engine
is constructed with `enable_hrg = true`, overriding `--no-hrg`; when
`auto_approve` is absent or null, `enable_hrg` equals `not --no-hrg`. -/
theorem claim_C9_hrg_override (parse : String → Json) (args : RunArgs)
    (config : Json) (ep : EngineParams)
    (hfile : args.inputs_file = some config)
    (hok : cmd_run_config parse args = some ep) :
    (∀ hrg_cfg v, pySub config "hrg_config" = some hrg_cfg →
      pySub hrg_cfg "auto_approve" = some v → v ≠ Json.null →
      ep.enable_hrg = true) ∧
    (∀ hrg_cfg, pyGetD config "hrg_config" (Json.obj []) = some hrg_cfg →
      pyGet hrg_cfg "auto_approve" = some Json.null →
      ep.enable_hrg = (!args.no_hrg)) := by
  obtain ⟨inputs, pid, seedv, hrg_cfg, auto, ethics_cfg, en, eeth,
    _, _, _, _, hg, hv, _, _, _, hep⟩ :=
    cmd_run_config_file parse args config ep hfile hok
  constructor
  · intro hrg_cfg2 v hsub hsubv hvnull
    have hg2 := pyGetD_of_pySub (Json.obj []) hsub
    rw [hg] at hg2
    have hcfg : hrg_cfg = hrg_cfg2 := Option.some.inj hg2
    have hv2 := pyGet_of_pySub hsubv
    rw [← hcfg] at hv2
    rw [hv] at hv2
    have hauto : auto = v := Option.some.inj hv2
    rw [hep]
    show hrgFlag auto args.no_hrg = true
    rw [hauto]
    exact hrgFlag_of_ne_null args.no_hrg hvnull
  · intro hrg_cfg2 hg2 hv2
    rw [hg] at hg2
    have hcfg : hrg_cfg = hrg_cfg2 := Option.some.inj hg2
    rw [← hcfg] at hv2
    rw [hv] at hv2
    have hauto : auto = Json.null := Option.some.inj hv2
    rw [hep]
    show hrgFlag auto args.no_hrg = !args.no_hrg
    rw [hauto]
    rfl

/-- A trivial stand-in for `json.loads` used in concrete CLI scenarios. -/
def parse0 : String → Json := fun _ => Json.null

/-- A config file carrying `hrg_config.auto_approve = false` (non-null). -/
def configC9 : Json :=
  Json.obj [("hrg_config", Json.obj [("auto_approve", Json.bool false)])]

/-- `run --no-hrg --inputs-file <configC9>`. -/
def argsC9 : RunArgs := ⟨"cli-pipeline", none, none, some configC9, true, false⟩

/-- The engine parameters `cmd_run` assembles for `argsC9`. -/
def epC9 : EngineParams :=
  ⟨Json.str "cli-pipeline", Json.null, true, Json.bool true, configC9⟩

/-- Witness for C9: `auto_approve = false` (non-null) forces
`enable_hrg = true` even though `--no-hrg` was passed. -/
theorem claim_C9_witness :
    cmd_run_config parse0 argsC9 = some epC9 ∧ epC9.enable_hrg = true := by
  refine ⟨rfl, ?_⟩
  exact (claim_C9_hrg_override parse0 argsC9 configC9 epC9 rfl rfl).1
    (Json.obj [("auto_approve", Json.bool false)]) (Json.bool false) rfl rfl
    (fun h => Json.noConfusion h)

/-- A config file whose `"inputs"` key is the number 7. -/
def configC10 : Json := Json.obj [("inputs", Json.num 7)]

/-- `run --inputs "" --inputs-file <configC10>`: `--inputs` is present but
empty, hence falsy in Python. -/
def argsC10 : RunArgs :=
  ⟨"cli-pipeline", none, some "", some configC10, false, false⟩

/-- The engine parameters `cmd_run` assembles for `argsC10`: the inputs come
from the file although `--inputs` was given. -/
def epC10 : EngineParams :=
  ⟨Json.str "cli-pipeline", Json.null, true, Json.bool true, Json.num 7⟩

/-- Counterexample to C10 as stated: with `--inputs ""` (present, so not
absent) and an `--inputs-file`, the resolved inputs are taken from the file,
not from `json.loads` of the `--inputs` string — the file is consulted even
though `--inputs` is not absent. -/
theorem claim_C10_counterexample :
    argsC10.inputs = some "" ∧
    cmd_run_config parse0 argsC10 = some epC10 ∧
    epC10.inputs = Json.num 7 ∧
    epC10.inputs ≠ parse0 "" := by
  refine ⟨rfl, rfl, rfl, fun h => Json.noConfusion h⟩

/-- Claim C10 (amended): with both flags and an `--inputs-file`, a
`pipeline_id` key in the file overrides `--pipeline-id` and a `random_seed`
key overrides `--seed`; the `--inputs` JSON string takes precedence for the
inputs payload when it is a nonempty string, and the file is consulted for
the inputs exactly when `--inputs` is absent or the empty (falsy) string. -/
theorem claim_C10_file_overrides (parse : String → Json) (args : RunArgs)
    (config : Json) (ep : EngineParams)
    (hfile : args.inputs_file = some config)
    (hok : cmd_run_config parse args = some ep) :
    (∀ v, pySub config "pipeline_id" = some v → ep.pipeline_id = v) ∧
    (∀ v, pySub config "random_seed" = some v → ep.random_seed = v) ∧
    (∀ s, args.inputs = some s → s ≠ "" → ep.inputs = parse s) ∧
    ((args.inputs = none ∨ args.inputs = some "") →
      pyGetD config "inputs" config = some ep.inputs) := by
  obtain ⟨inputs, pid, seedv, hrg_cfg, auto, ethics_cfg, en, eeth,
    hintrue, hinfalse, hpid, hsv, _, _, _, _, _, hep⟩ :=
    cmd_run_config_file parse args config ep hfile hok
  refine ⟨?_, ?_, ?_, ?_⟩
  · intro v hsub
    have h2 := pyGetD_of_pySub (Json.str args.pipeline_id) hsub
    rw [hpid] at h2
    rw [hep]
    exact Option.some.inj h2
  · intro v hsub
    have h2 := pyGetD_of_pySub (seedJson args.seed) hsub
    rw [hsv] at h2
    rw [hep]
    exact Option.some.inj h2
  · intro s hs hne
    have ht : truthyOpt args.inputs = true := by
      rw [hs]
      simpa [truthyOpt] using hne
    have h2 := hintrue ht
    rw [hs] at h2
    rw [hep]
    exact h2.symm
  · intro hcase
    have ht : truthyOpt args.inputs = false := by
      rcases hcase with h | h <;> rw [h] <;> simp [truthyOpt]
    rw [hep]
    exact hinfalse ht

/-- A stand-in for `json.loads` mapping a string to a JSON string. -/
def parse1 : String → Json := fun s => Json.str s

/-- A config file overriding both `pipeline_id` and `random_seed`. -/
def configC10b : Json :=
  Json.obj [("pipeline_id", Json.str "from-file"), ("random_seed", Json.num 9)]

/-- `run --pipeline-id cli-pipeline --seed 4 --inputs xyz
--inputs-file <configC10b>`. -/
def argsC10b : RunArgs :=
  ⟨"cli-pipeline", some 4, some "xyz", some configC10b, false, false⟩

/-- The engine parameters `cmd_run` assembles for `argsC10b`. -/
def epC10b : EngineParams :=
  ⟨Json.str "from-file", Json.num 9, true, Json.bool true, Json.str "xyz"⟩

/-- Witness for the amended C10: the file overrides `pipeline_id` and
`random_seed` while the nonempty `--inputs` string wins for the inputs. -/
theorem claim_C10_witness :
    cmd_run_config parse1 argsC10b = some epC10b ∧
    epC10b.pipeline_id = Json.str "from-file" ∧
    epC10b.random_seed = Json.num 9 ∧
    epC10b.inputs = parse1 "xyz" := by
  have h := claim_C10_file_overrides parse1 argsC10b configC10b epC10b rfl rfl
  exact ⟨rfl, h.1 (Json.str "from-file") rfl, h.2.1 (Json.num 9) rfl,
    h.2.2.1 "xyz" rfl (by decide)⟩
